import Mathlib

/-!
Shallow embedding of the process-lifecycle core and synchronization
primitives of the jinux/asterinas kernel sources, together with proofs
about the claims of the specification.

The embedding mirrors:
* `src/services/libs/jinux-std/src/process/mod.rs` — the `Process`
  entity, its lifecycle (`spawn_user_process`, `exit_group`,
  `reap_zombie_child`), group management and signal queuing;
* `src/framework/jinux-frame/src/sync/spin.rs` — the interrupt-masking
  spin lock;
* `src/kernel/aster-nix/src/syscall/dup.rs` — the `dup2` syscall.

Rust `Arc<Process>` aliasing is modelled by a heap of process records
keyed by the (immutable, unique) pid inside a `Kernel` state; `Weak`
references are `Option Pid` / `Option Pgid` whose `upgrade` is a heap
lookup.  External collaborators whose code is not part of the sources
(status module, signal queues, process table, process groups, the trap
module's interrupt guard, the file table) are modelled from the spec;
each such definition says so in its doc comment.
-/

namespace JinuxStd

/-- `pub type Pid = i32` (no arithmetic is performed on pids, so `Int`
is a faithful carrier). -/
abbrev Pid := Int

/-- `pub type Pgid = i32`. -/
abbrev Pgid := Int

/-- Thread id, `Tid = i32` in the sources. -/
abbrev Tid := Int

/-- `const INIT_PROCESS_PID: Pid = 1;` -/
def INIT_PROCESS_PID : Pid := 1

/-- Modelled from the spec: the `status` module is not in the sources;
the spec gives the closed status set `Runnable`, `Zombie`. -/
inductive ProcessStatus
  | Runnable
  | Zombie
deriving DecidableEq, Repr

/-- Modelled from the spec: `set_zombie` performs the
`Runnable → Zombie` transition (terminal). -/
def ProcessStatus.set_zombie (_ : ProcessStatus) : ProcessStatus :=
  ProcessStatus.Zombie

/-- Modelled from the spec: `is_zombie` tests for the terminal state. -/
def ProcessStatus.is_zombie : ProcessStatus → Bool
  | ProcessStatus.Zombie => true
  | ProcessStatus.Runnable => false

/-- Signals are a closed set of kinds; only the kind matters for the
queuing layer, so a signal is its number. -/
abbrev Signal := Int

/-- `SIGCHLD` signal number (only its identity matters here). -/
def SIGCHLD : Signal := 17

/-- Process-level pending-signal storage. -/
structure SigQueues where
  queue : List Signal
deriving DecidableEq, Repr

/-- Modelled from the spec: the `sig_queues` module is not in the
sources; `enqueue` "appends to the process's signal queue". -/
def SigQueues.enqueue (q : SigQueues) (signal : Signal) : SigQueues :=
  ⟨q.queue ++ [signal]⟩

/-- Fresh, empty pending-signal storage (`SigQueues::new()`). -/
def SigQueues.new : SigQueues := ⟨[]⟩

/-- One `Process` record: the mutable fields of the Rust `Process`
struct that the claims are about.  `children` is the key set of
`BTreeMap<Pid, Arc<Process>>` (the child entities live in the kernel
heap); `parent` and `process_group` are the `Weak` back-references;
`vmar_destroyed` records whether `root_vmar.destroy_all()` has run. -/
structure Process where
  pid : Pid
  threads : List Tid
  exit_code : Int
  status : ProcessStatus
  parent : Option Pid
  children : List Pid
  process_group : Option Pgid
  sig_queues : SigQueues
  vmar_destroyed : Bool
deriving DecidableEq, Repr

/-- A process group: its `pgid` and the key set of its
`BTreeMap<Pid, Arc<Process>>` membership map. -/
structure ProcessGroup where
  pgid : Pgid
  processes : List Pid
deriving DecidableEq, Repr

/-- Modelled from the spec: the `process_group` module is not in the
sources; `remove_process(pid)` removes the pid from the group's
membership map. -/
def ProcessGroup.remove_process (g : ProcessGroup) (pid : Pid) : ProcessGroup :=
  { g with processes := g.processes.filter (fun q => q ≠ pid) }

/-- Modelled from the spec: `ProcessGroup::new(process)` creates "a new
process group consisting solely of this process"; its pgid is the
leader's pid (job-control identity). -/
def ProcessGroup.newGroup (leader : Pid) : ProcessGroup :=
  { pgid := leader, processes := [leader] }

/-- The kernel state: the heap of live `Process` entities (everything
still kept alive by an `Arc`), the global process registry (the pid set
of `process_table`), the registered process groups, the global thread
registry, and the controlling terminal's foreground pgid. -/
structure Kernel where
  procs : List Process
  process_table : List Pid
  groups : List ProcessGroup
  thread_table : List Tid
  tty_fg : Pgid
deriving DecidableEq, Repr

/-- Dereference an `Arc<Process>`/upgraded `Weak<Process>`: find the
live entity with this pid in the heap. -/
def Kernel.findProc (k : Kernel) (pid : Pid) : Option Process :=
  k.procs.find? (fun p => p.pid == pid)

/-- Mutate (under its own locks) the fields of the live process with
this pid. -/
def Kernel.updateProc (k : Kernel) (pid : Pid) (f : Process → Process) : Kernel :=
  { k with procs := k.procs.map (fun p => if p.pid == pid then f p else p) }

/-- Dereference an upgraded `Weak<ProcessGroup>`. -/
def Kernel.findGroup (k : Kernel) (pgid : Pgid) : Option ProcessGroup :=
  k.groups.find? (fun g => g.pgid == pgid)

/-- Mutate a registered process group. -/
def Kernel.updateGroup (k : Kernel) (pgid : Pgid) (f : ProcessGroup → ProcessGroup) : Kernel :=
  { k with groups := k.groups.map (fun g => if g.pgid == pgid then f g else g) }

namespace process_table

/-- Modelled from the spec: the `process_table` module is not in the
sources; `pid_to_process(pid)` looks the pid up in the registry and
returns the registered process. -/
def pid_to_process (k : Kernel) (pid : Pid) : Option Process :=
  if k.process_table.contains pid then k.findProc pid else none

/-- Modelled from the spec: `add_process` registers a pid in the
global registry. -/
def add_process (k : Kernel) (pid : Pid) : Kernel :=
  { k with process_table := k.process_table ++ [pid] }

/-- Modelled from the spec: `remove_process` removes a pid from the
global registry. -/
def remove_process (k : Kernel) (pid : Pid) : Kernel :=
  { k with process_table := k.process_table.filter (fun q => q ≠ pid) }

/-- Modelled from the spec: `add_process_group` registers a group in
the global group table. -/
def add_process_group (k : Kernel) (g : ProcessGroup) : Kernel :=
  { k with groups := k.groups ++ [g] }

end process_table

/-- `pub fn is_init_process(&self) -> bool { self.pid == 0 }`
(exactly as written in the source, line 293–295). -/
def Process.is_init_process (p : Process) : Bool :=
  p.pid == 0

/-- `pub fn get_init_process() -> Option<Arc<Process>>`:
`process_table::pid_to_process(INIT_PROCESS_PID)`. -/
def get_init_process (k : Kernel) : Option Process :=
  process_table.pid_to_process k INIT_PROCESS_PID

/-- `pub fn pgid(&self) -> Pgid`: upgrade the group back-reference and
return its pgid, or the sentinel `0` when absent/dangling. -/
def Process.pgid (k : Kernel) (p : Process) : Pgid :=
  match p.process_group.bind k.findGroup with
  | some process_group => process_group.pgid
  | none => 0

/-- `pub fn add_child(&self, child: Arc<Process>)`: insert the child's
pid into the `children` map (BTreeMap key-set insert: inserting a key
that is already present leaves the key set unchanged). -/
def Process.add_child (p : Process) (child : Pid) : Process :=
  if p.children.contains child then p
  else { p with children := p.children ++ [child] }

/-- `pub fn set_parent(&self, parent: Weak<Process>)`. -/
def Process.set_parent (p : Process) (parent : Option Pid) : Process :=
  { p with parent := parent }

/-- `pub fn parent(&self) -> Option<Arc<Process>>`: upgrade the weak
parent reference. -/
def Process.parentProc (k : Kernel) (p : Process) : Option Process :=
  p.parent.bind k.findProc

/-- `pub fn set_process_group(&self, process_group: Weak<ProcessGroup>)`,
step 1 of 2: `if let Some(old) = self.process_group.lock().upgrade()
{ old.remove_process(self.pid()); }` — the old group's membership is
updated under the old group's own lock, after the `process_group`
mutex has been released. -/
def Process.set_process_group_step1 (k : Kernel) (self : Pid) : Kernel :=
  match k.findProc self with
  | none => k
  | some p =>
    match p.process_group.bind k.findGroup with
    | some old_process_group =>
        k.updateGroup old_process_group.pgid (fun g => g.remove_process p.pid)
    | none => k

/-- `set_process_group`, step 2 of 2:
`*self.process_group.lock() = process_group;`. -/
def Process.set_process_group_step2 (k : Kernel) (self : Pid)
    (process_group : Option Pgid) : Kernel :=
  k.updateProc self (fun p => { p with process_group := process_group })

/-- `pub fn set_process_group(&self, process_group: Weak<ProcessGroup>)`
(source lines 230–235): remove self from the old group, then overwrite
the group back-reference. -/
def Process.set_process_group (k : Kernel) (self : Pid)
    (process_group : Option Pgid) : Kernel :=
  Process.set_process_group_step2
    (Process.set_process_group_step1 k self) self process_group

/-- The sequence of externally observable kernel states during one
`set_process_group` call: initial, after the removal from the old
group (the two inner lock scopes have both been exited here), final.
Each element is observable because no lock is held across the
boundary between the steps. -/
def Process.set_process_group_states (k : Kernel) (self : Pid)
    (process_group : Option Pgid) : List Kernel :=
  [k,
   Process.set_process_group_step1 k self,
   Process.set_process_group k self process_group]

/-- `pub fn enqueue_signal(&self, signal: Box<dyn Signal>)` (source
lines 376–380): no-op when already a zombie, otherwise enqueue on the
process's own signal queues. -/
def Process.enqueue_signal (p : Process) (signal : Signal) : Process :=
  if !p.status.is_zombie then
    { p with sig_queues := p.sig_queues.enqueue signal }
  else p

/-- Events emitted by `exit_group`, in program order, used to state
ordering claims. -/
inductive Event
  | SetZombie (pid : Pid)
  | StoreExitCode (pid : Pid) (code : Int)
  | ThreadExit (tid : Tid)
  | ReparentChild (child : Pid) (newParent : Pid)
  | EnqueueSignal (target : Pid) (signal : Signal)
  | WakeAll (target : Pid)
deriving DecidableEq, Repr

/-- One iteration of `exit_group`'s reparenting loop (source lines
276–279): `child.set_parent(Arc::downgrade(&init_process));
init_process.add_child(child);`. -/
def reparentStep (initPid : Pid) (acc : Kernel) (c : Pid) : Kernel :=
  (acc.updateProc c (fun p => p.set_parent (some initPid))).updateProc
    initPid (fun p => p.add_child c)

/-- `exit_group`, reparenting block (source lines 274–281): unless
`self.is_init_process()`, and provided `get_init_process()` returns a
process, drain all children, set each child's parent to the init
process and add it to the init process's children. -/
def Process.exit_group_reparent (k : Kernel) (self : Pid) : Kernel × List Event :=
  match k.findProc self with
  | none => (k, [])
  | some sp =>
    if sp.is_init_process then (k, [])
    else
      match get_init_process k with
      | none => (k, [])
      | some init_process =>
        let cs := sp.children
        let k1 := k.updateProc self (fun p => { p with children := [] })
        let k2 := cs.foldl (reparentStep init_process.pid) k1
        (k2, cs.map (fun c => Event.ReparentChild c init_process.pid))

/-- `exit_group`, parent-notification block (source lines 283–289):
if the weak parent reference upgrades, enqueue a `SIGCHLD` kernel
signal directly on the parent's `sig_queues` (note: not via
`enqueue_signal`), then `wake_all` the parent's `waiting_children`
wait queue. -/
def Process.exit_group_notify (k : Kernel) (self : Pid) : Kernel × List Event :=
  match k.findProc self with
  | none => (k, [])
  | some sp =>
    match sp.parentProc k with
    | none => (k, [])
    | some parent =>
      let k1 := k.updateProc parent.pid
        (fun p => { p with sig_queues := p.sig_queues.enqueue SIGCHLD })
      (k1, [Event.EnqueueSignal parent.pid SIGCHLD, Event.WakeAll parent.pid])

/-- `pub fn exit_group(&self, exit_code: i32)` (source lines 266–290):
mark zombie, store the exit code, request exit of every thread, move
children to the init process, then signal and wake the parent.
Returns the final kernel state and the emitted event list in program
order. -/
def Process.exit_group (k : Kernel) (self : Pid) (exit_code : Int) :
    Kernel × List Event :=
  let k1 := k.updateProc self (fun p => { p with status := p.status.set_zombie })
  let k2 := k1.updateProc self (fun p => { p with exit_code := exit_code })
  let threadEvents :=
    match k2.findProc self with
    | some p => p.threads.map Event.ThreadExit
    | none => []
  let kev3 := Process.exit_group_reparent k2 self
  let kev4 := Process.exit_group_notify kev3.1 self
  (kev4.1,
   Event.SetZombie self :: Event.StoreExitCode self exit_code ::
     threadEvents ++ kev3.2 ++ kev4.2)

/-- Modelled from the spec: `thread_table::remove_thread(tid)` removes
a tid from the global thread registry (`process_table`-style table for
threads; module not in the sources). -/
def thread_table.remove_thread (k : Kernel) (tid : Tid) : Kernel :=
  { k with thread_table := k.thread_table.filter (fun t => t ≠ tid) }

/-- `pub fn reap_zombie_child(&self, pid: Pid) -> i32` (source lines
329–341).  `children.lock().remove(&pid).unwrap()` panics when the pid
is absent, and `assert!(child.status().lock().is_zombie())` panics when
the child is not a zombie; both kernel aborts are modelled as `none`.
Otherwise: destroy the child's whole address space, remove each of its
threads from the thread registry, remove it from the process registry
and from its process group (if the weak reference still upgrades), and
return the stored exit code. -/
def Process.reap_zombie_child (k : Kernel) (self : Pid) (pid : Pid) :
    Option (Kernel × Int) :=
  match k.findProc self with
  | none => none
  | some sp =>
    if sp.children.contains pid then
      let k1 := k.updateProc self
        (fun p => { p with children := p.children.filter (fun q => q ≠ pid) })
      match k1.findProc pid with
      | none => none
      | some child_process =>
        if child_process.status.is_zombie then
          let k2 := k1.updateProc pid (fun p => { p with vmar_destroyed := true })
          let k3 := child_process.threads.foldl thread_table.remove_thread k2
          let k4 := process_table.remove_process k3 child_process.pid
          let k5 :=
            match child_process.process_group.bind k4.findGroup with
            | some process_group =>
                k4.updateGroup process_group.pgid
                  (fun g => g.remove_process child_process.pid)
            | none => k4
          some (k5, child_process.exit_code)
        else none
    else none

/-- Error values propagated by fallible creation steps (`Result`'s
error type; only identity matters for "propagates the first failure"). -/
abbrev Errno := Int

/-- `pub fn new(...) -> Self` (source lines 96–131): a fresh process
record — `Runnable`, exit code 0, empty children, fresh signal queues,
address space alive. -/
def Process.new (pid : Pid) (parent : Option Pid) (threads : List Tid)
    (process_group : Option Pgid) : Process :=
  { pid := pid, threads := threads, exit_code := 0,
    status := ProcessStatus.Runnable, parent := parent, children := [],
    process_group := process_group, sig_queues := SigQueues.new,
    vmar_destroyed := false }

/-- Outcomes of the external fallible collaborators used by
`create_user_process`, in the order the source consults them:
`Vmar::<Full>::new_root()`, `UserVm::new(&root_vmar)`, and
`Thread::new_posix_thread_from_executable(..)` (which loads the
executable); a `Tid` stands for the successfully built thread. -/
structure SpawnEnv where
  vmar_new : Except Errno Unit
  user_vm_new : Except Errno Unit
  thread_new : Except Errno Tid
deriving Repr

/-- `fn create_and_set_process_group(self: &Arc<Self>)` (source lines
251–256): build a `ProcessGroup::new(self)`, set it as the process's
group, and register it in the global group table. -/
def Process.create_and_set_process_group (k : Kernel) (self : Pid) : Kernel :=
  let process_group := ProcessGroup.newGroup self
  let k1 := Process.set_process_group k self (some process_group.pgid)
  process_table.add_process_group k1 process_group

/-- `fn create_user_process(...) -> Result<Arc<Self>>` (source lines
155–198): run the fallible steps in source order; only after the sole
thread has been built is the process object completed (thread pushed),
its fresh singleton group created and registered, and the process
registered in the global table.  On any failure the error is returned
and the kernel state is untouched (the partially built `Arc` is
dropped unregistered).  The kernel state (the global tables) is
returned on both paths: an early `?` return leaves the globals exactly
as they were. -/
def Process.create_user_process (k : Kernel) (env : SpawnEnv) (pid : Pid) :
    Except Errno Pid × Kernel :=
  match env.vmar_new with
  | Except.error e => (Except.error e, k)
  | Except.ok _ =>
    match env.user_vm_new with
    | Except.error e => (Except.error e, k)
    | Except.ok _ =>
      match env.thread_new with
      | Except.error e => (Except.error e, k)
      | Except.ok tid =>
        let user_process := Process.new pid none [] none
        let user_process := { user_process with threads := user_process.threads ++ [tid] }
        let k1 := { k with procs := k.procs ++ [user_process] }
        let k2 := Process.create_and_set_process_group k1 pid
        let k3 := process_table.add_process k2 pid
        (Except.ok pid, k3)

/-- `pub fn spawn_user_process(...) -> Result<Arc<Self>>` (source lines
138–153): create the process (propagating any failure), record its
pgid as the terminal's foreground group, and hand its sole thread to
the scheduler (`run()` — external, no kernel-state effect here). -/
def Process.spawn_user_process (k : Kernel) (env : SpawnEnv) (pid : Pid) :
    Except Errno Pid × Kernel :=
  match Process.create_user_process k env pid with
  | (Except.error e, k1) => (Except.error e, k1)
  | (Except.ok p, k1) =>
    let pgid :=
      match k1.findProc p with
      | some pr => Process.pgid k1 pr
      | none => 0
    let k2 := { k1 with tty_fg := pgid }
    (Except.ok p, k2)

end JinuxStd

namespace JinuxFrame

/-- The per-CPU interrupt-enable flag (the state `disable_local`
manipulates). -/
structure CpuState where
  irq_enabled : Bool
deriving DecidableEq, Repr

/-- Modelled from the spec: `DisabledLocalIrqGuard` (the `trap` module
is not in the sources) records "enough state to restore it later" —
the interrupt-enable state found at entry. -/
structure DisabledLocalIrqGuard where
  was_enabled : Bool
deriving DecidableEq, Repr

/-- Modelled from the spec: `disable_local()` disables local interrupt
delivery and returns a guard recording the prior state. -/
def disable_local (s : CpuState) : DisabledLocalIrqGuard × CpuState :=
  (⟨s.irq_enabled⟩, ⟨false⟩)

/-- Modelled from the spec: dropping a `DisabledLocalIrqGuard`
restores the recorded prior interrupt-enable state. -/
def DisabledLocalIrqGuard.dropGuard (g : DisabledLocalIrqGuard)
    (_ : CpuState) : CpuState :=
  ⟨g.was_enabled⟩

/-- The spin lock's `lock: AtomicBool` flag (`true` = held). -/
abbrev LockFlag := Bool

/-- `fn try_acquire_lock(&self) -> bool`: one
`compare_exchange(false, true, SeqCst, SeqCst)` — succeeds exactly
when the flag was clear; returns (success, new flag). -/
def SpinLock.try_acquire_lock (l : LockFlag) : Bool × LockFlag :=
  if l then (false, l) else (true, true)

/-- `fn release_lock(&self)`: `self.lock.store(false, SeqCst)`. -/
def SpinLock.release_lock (_ : LockFlag) : LockFlag := false

/-- The guard of a spin lock: holds the interrupt guard taken at
acquisition (field `irq_guard`). -/
structure SpinLockGuard where
  irq_guard : DisabledLocalIrqGuard
deriving DecidableEq, Repr

/-- `pub fn try_lock(&self) -> Option<SpinLockGuard<T>>` (source lines
39–50): disable local interrupts, make a single acquisition attempt;
on success wrap the interrupt guard into the lock guard, on failure
return `None` — the interrupt guard goes out of scope and its drop
restores the prior interrupt state.  Returns (guard?, flag, cpu). -/
def SpinLock.try_lock (l : LockFlag) (s : CpuState) :
    Option SpinLockGuard × LockFlag × CpuState :=
  let gs := disable_local s
  let irq_guard := gs.1
  let s1 := gs.2
  let al := SpinLock.try_acquire_lock l
  if al.1 then
    (some ⟨irq_guard⟩, al.2, s1)
  else
    (none, al.2, irq_guard.dropGuard s1)

/-- `pub fn lock(&self) -> SpinLockGuard<T>` (source lines 28–36):
disable local interrupts, then busy-wait on `try_acquire_lock`.  In a
sequential model the busy wait terminates exactly when the flag is
clear; a held flag means the caller spins forever, modelled as
`none`. -/
def SpinLock.lock (l : LockFlag) (s : CpuState) :
    Option (SpinLockGuard × LockFlag × CpuState) :=
  let gs := disable_local s
  let al := SpinLock.try_acquire_lock l
  if al.1 then some (⟨gs.1⟩, al.2, gs.2) else none

/-- `impl Drop for SpinLockGuard` (source lines 100–104): the `drop`
body runs `self.lock.release_lock()`; afterwards Rust drops the fields
in declaration order, so the held `irq_guard` is dropped next,
restoring the prior interrupt-enable state.  The middle component is
the intermediate (flag, cpu) pair after `release_lock` but before the
interrupt restore, exposing the order of the two effects. -/
def SpinLockGuard.dropGuard (g : SpinLockGuard) (l : LockFlag)
    (s : CpuState) : (LockFlag × CpuState) × (LockFlag × CpuState) :=
  let l1 := SpinLock.release_lock l
  ((l1, s), (l1, g.irq_guard.dropGuard s))

end JinuxFrame

namespace AsterNix

/-- `pub type FileDesc = i32`. -/
abbrev FileDesc := Int

/-- An open file handle (identity only: the dup machinery clones and
stores handles, never inspects them). -/
abbrev FileHandle := Nat

/-- The process's file table: fd → open file.  Modelled from the spec:
the file table is an external collaborator (module not in the
sources). -/
structure FileTable where
  entries : List (FileDesc × FileHandle)
deriving DecidableEq, Repr

/-- Modelled from the spec: `get_file(fd)` returns the open file at
`fd` or an error when `fd` is not open. -/
def FileTable.get_file (t : FileTable) (fd : FileDesc) :
    Except JinuxStd.Errno FileHandle :=
  match t.entries.find? (fun e => e.1 == fd) with
  | some e => Except.ok e.2
  | none => Except.error 9

/-- Modelled from the spec: `insert_at(fd, file, flags)` installs the
file at exactly `fd`, returning the previously open file at `fd`, if
any. -/
def FileTable.insert_at (t : FileTable) (fd : FileDesc) (file : FileHandle) :
    Option FileHandle × FileTable :=
  let old := (t.entries.find? (fun e => e.1 == fd)).map (fun e => e.2)
  (old, ⟨(fd, file) :: t.entries.filter (fun e => e.1 ≠ fd)⟩)

/-- `pub fn sys_dup2(old_fd: FileDesc, new_fd: FileDesc)` (source lines
20–34): look up `old_fd` (propagating the error, table untouched); when
`old_fd != new_fd`, install the file at `new_fd`, silently closing any
file previously open there; return `new_fd`.  Returns (syscall result,
resulting file table). -/
def sys_dup2 (t : FileTable) (old_fd new_fd : FileDesc) :
    Except JinuxStd.Errno Int × FileTable :=
  match t.get_file old_fd with
  | Except.error e => (Except.error e, t)
  | Except.ok file =>
    let t1 :=
      if old_fd ≠ new_fd then
        let r := t.insert_at new_fd file
        r.2
      else t
    (Except.ok new_fd, t1)

end AsterNix

namespace JinuxStd

/-- Fixture: a live init process (pid `INIT_PROCESS_PID = 1`) with one
thread, leading its own group. -/
def initProcess : Process := Process.new 1 none [11] (some 1)

/-- Fixture: a booted kernel holding only the registered init
process. -/
def initKernel : Kernel :=
  { procs := [initProcess], process_table := [1],
    groups := [ProcessGroup.newGroup 1], thread_table := [11], tty_fg := 1 }

/-- Fixture: a process with pid 0 (which `is_init_process` wrongly
reports as the init process) holding one child, pid 8. -/
def pidZeroParent : Process :=
  { Process.new 0 none [20] none with children := [8] }

/-- Fixture: the child (pid 8) of the pid-0 process. -/
def pidZeroChild : Process := Process.new 8 (some 0) [21] none

/-- Fixture kernel for the reparenting claims: init (pid 1) plus the
pid-0 parent and its child. -/
def pidZeroKernel : Kernel :=
  { procs := [initProcess, pidZeroParent, pidZeroChild],
    process_table := [1, 0, 8],
    groups := [ProcessGroup.newGroup 1], thread_table := [11, 20, 21],
    tty_fg := 1 }

/-- Fixture: a zombie process (for the signal-queue no-op case). -/
def zombieProcess : Process :=
  { Process.new 3 none [] none with status := ProcessStatus.Zombie }

/-- Fixture: a process (pid 5) that is a member of group 5. -/
def groupedProcess : Process := Process.new 5 none [51] (some 5)

/-- Fixture kernel for the group-switch claims: process 5 in group 5,
and a second group 7 (not containing 5). -/
def twoGroupKernel : Kernel :=
  { procs := [groupedProcess], process_table := [5],
    groups := [ProcessGroup.newGroup 5, ProcessGroup.newGroup 7],
    thread_table := [51], tty_fg := 5 }

/-- Fixture: a parent (pid 2) holding one child, pid 8. -/
def reapParent : Process :=
  { Process.new 2 none [22] none with children := [8] }

/-- Fixture: a zombie child (pid 8) of pid 2 with exit code 42, still
referencing group 7. -/
def reapChild : Process :=
  { Process.new 8 (some 2) [23] (some 7) with
      status := ProcessStatus.Zombie, exit_code := 42 }

/-- Fixture kernel for the reaping claim: the parent, its zombie child
(registered, threads in the thread table, listed in group 7). -/
def reapKernel : Kernel :=
  { procs := [reapParent, reapChild], process_table := [2, 8],
    groups := [{ pgid := 7, processes := [7, 8] }],
    thread_table := [22, 23], tty_fg := 7 }

/-- Fixture: an empty, freshly booted kernel (for the spawn claim). -/
def emptyKernel : Kernel :=
  { procs := [], process_table := [], groups := [], thread_table := [],
    tty_fg := 0 }

/-- Fixture: a spawn environment in which every collaborator
succeeds; the loader builds thread 31. -/
def spawnEnvOk : SpawnEnv :=
  { vmar_new := Except.ok (), user_vm_new := Except.ok (),
    thread_new := Except.ok 31 }

/-- Fixture: a spawn environment in which address-space creation
fails with error 12. -/
def spawnEnvFail : SpawnEnv :=
  { vmar_new := Except.error 12, user_vm_new := Except.ok (),
    thread_new := Except.ok 31 }

end JinuxStd

namespace JinuxStd

/-- The membership test used to state the group/back-reference
consistency claim: does the kernel's group `gid` list `pid`? -/
def groupListsPid (k : Kernel) (gid : Pgid) (pid : Pid) : Bool :=
  match k.findGroup gid with
  | some g => g.processes.contains pid
  | none => false

/-- The group/back-reference consistency predicate of the claim: the
process's `process_group` reference, if it upgrades, names a group
that lists the process's pid among its members. -/
def groupRefConsistent (k : Kernel) (pid : Pid) : Bool :=
  match k.findProc pid with
  | none => true
  | some p =>
    match p.process_group with
    | none => true
    | some gid =>
      match k.findGroup gid with
      | none => true
      | some g => g.processes.contains pid

end JinuxStd

namespace JinuxStd

/-- C1: the claim says `is_init_process()` returns true exactly for a
process whose pid equals the designated init pid (1).  The code
contradicts it (and its own `INIT_PROCESS_PID` constant): the process
returned by the pid-1 registry lookup — the designated init process —
is not recognized by `is_init_process`, which instead accepts pid 0. -/
theorem C1_is_init_process_pid_mismatch :
    INIT_PROCESS_PID = 1 ∧
    get_init_process initKernel = some initProcess ∧
    initProcess.pid = INIT_PROCESS_PID ∧
    initProcess.is_init_process = false ∧
    (Process.new 0 none [] none).is_init_process = true := by
  decide

/-- C2: the claim says every non-init process (init being pid 1) has
its children reparented to init by `exit_group`.  Evaluating the code
at the failing input — a pid-0 process with one child (pid 8), init
(pid 1) registered — shows the reparenting step is skipped (because
`is_init_process` tests pid 0): the exiting process's children map
stays nonempty, init's children map does not grow, and the child's
parent still names the exiting process; status and exit code are
nevertheless set as the claim states. -/
theorem C2_exit_group_pid0_skips_reparenting :
    pidZeroParent.pid ≠ INIT_PROCESS_PID ∧
    get_init_process pidZeroKernel = some initProcess ∧
    (((Process.exit_group pidZeroKernel 0 3).1.findProc 0).map Process.status
        = some ProcessStatus.Zombie) ∧
    (((Process.exit_group pidZeroKernel 0 3).1.findProc 0).map Process.exit_code
        = some 3) ∧
    (((Process.exit_group pidZeroKernel 0 3).1.findProc 0).map Process.children
        = some [8]) ∧
    (((Process.exit_group pidZeroKernel 0 3).1.findProc 1).map Process.children
        = some []) ∧
    (((Process.exit_group pidZeroKernel 0 3).1.findProc 8).map Process.parent
        = some (some 0)) := by
  decide

/-- C7: `enqueue_signal` leaves a zombie process (hence its signal
queues) unchanged, and otherwise appends the signal to the process's
signal queue while touching nothing else of the signal state. -/
theorem C7_enqueue_signal_spec (p : Process) (signal : Signal) :
    (p.status.is_zombie = true → p.enqueue_signal signal = p) ∧
    (p.status.is_zombie = false →
      (p.enqueue_signal signal).sig_queues.queue
          = p.sig_queues.queue ++ [signal] ∧
      (p.enqueue_signal signal).status = p.status ∧
      (p.enqueue_signal signal).pid = p.pid) := by
  constructor
  · intro h
    simp [Process.enqueue_signal, h]
  · intro h
    simp [Process.enqueue_signal, h, SigQueues.enqueue]

/-- Witness for C7 at concrete inputs: a zombie process is untouched;
the runnable init process gets the signal appended. -/
theorem C7_enqueue_signal_witness :
    (zombieProcess.status.is_zombie = true ∧
      zombieProcess.enqueue_signal 9 = zombieProcess) ∧
    (initProcess.status.is_zombie = false ∧
      (initProcess.enqueue_signal 9).sig_queues.queue
        = initProcess.sig_queues.queue ++ [9]) :=
  ⟨⟨by decide, (C7_enqueue_signal_spec zombieProcess 9).1 (by decide)⟩,
   ⟨by decide, ((C7_enqueue_signal_spec initProcess 9).2 (by decide)).1⟩⟩

end JinuxStd

namespace JinuxFrame

/-- C8: `try_lock` on a held lock makes its single acquisition attempt
fail and returns no guard, with the caller's interrupt-enable state
exactly as before the call (the interrupt-disable taken at entry is
rolled back) and the flag still held; on a free lock it acquires, and
only then does the caller's scope keep interrupts disabled. -/
theorem C8_try_lock_interrupt_rollback (l : LockFlag) (s : CpuState) :
    (l = true → SpinLock.try_lock l s = (none, l, s)) ∧
    (l = false →
      SpinLock.try_lock l s = (some ⟨⟨s.irq_enabled⟩⟩, true, ⟨false⟩)) := by
  constructor
  · intro h
    subst h
    rfl
  · intro h
    subst h
    rfl

/-- Witness for C8: a held lock with interrupts initially enabled —
no guard, flag still held, interrupts still enabled afterwards; and a
free lock gets acquired with interrupts masked. -/
theorem C8_try_lock_witness :
    SpinLock.try_lock true ⟨true⟩ = (none, true, ⟨true⟩) ∧
    SpinLock.try_lock false ⟨true⟩ = (some ⟨⟨true⟩⟩, true, ⟨false⟩) :=
  ⟨(C8_try_lock_interrupt_rollback true ⟨true⟩).1 rfl,
   (C8_try_lock_interrupt_rollback false ⟨true⟩).2 rfl⟩

/-- C9: dropping the guard of a successfully taken lock first clears
the lock flag (middle state: flag clear, interrupts still masked) and
then restores the interrupt-enable state recorded at acquisition, so
`lock()` followed by the guard drop is a no-op on the worker's
interrupt-enable state, with the flag released. -/
theorem C9_lock_drop_roundtrip (l : LockFlag) (s : CpuState)
    (hfree : l = false) :
    ∃ g : SpinLockGuard,
      SpinLock.lock l s = some (g, true, ⟨false⟩) ∧
      g.dropGuard true ⟨false⟩ = ((false, ⟨false⟩), (false, s)) := by
  subst hfree
  exact ⟨⟨⟨s.irq_enabled⟩⟩, rfl, rfl⟩

/-- Witness for C9 at a concrete input: interrupts enabled before
`lock()`, and enabled again after the guard drop, released flag, with
the intermediate state showing clear-then-restore order. -/
theorem C9_lock_drop_roundtrip_witness :
    ∃ g : SpinLockGuard,
      SpinLock.lock false ⟨true⟩ = some (g, true, ⟨false⟩) ∧
      g.dropGuard true ⟨false⟩ = ((false, ⟨false⟩), (false, ⟨true⟩)) :=
  C9_lock_drop_roundtrip false ⟨true⟩ rfl

end JinuxFrame

namespace AsterNix

/-- C10: `sys_dup2(fd, fd)` leaves the file table unchanged — it
returns `fd` when `fd` is open and an error when it is not, in both
cases without inserting or closing anything. -/
theorem C10_dup2_same_fd (t : FileTable) (fd : FileDesc) :
    (∀ f, t.get_file fd = Except.ok f →
        sys_dup2 t fd fd = (Except.ok fd, t)) ∧
    (∀ e, t.get_file fd = Except.error e →
        sys_dup2 t fd fd = (Except.error e, t)) := by
  constructor
  · intro f h
    simp [sys_dup2, h]
  · intro e h
    simp [sys_dup2, h]

/-- Witness for C10: a table with fd 3 open — `dup2(3,3)` returns 3
and the table is unchanged; `dup2(4,4)` on the same table fails and
the table is unchanged. -/
theorem C10_dup2_same_fd_witness :
    sys_dup2 ⟨[(3, 100)]⟩ 3 3 = (Except.ok 3, ⟨[(3, 100)]⟩) ∧
    sys_dup2 ⟨[(3, 100)]⟩ 4 4 = (Except.error 9, ⟨[(3, 100)]⟩) :=
  ⟨(C10_dup2_same_fd ⟨[(3, 100)]⟩ 3).1 100 rfl,
   (C10_dup2_same_fd ⟨[(3, 100)]⟩ 4).2 9 rfl⟩

end AsterNix

namespace JinuxStd

/-- A heap lookup returns a record carrying the looked-up pid. -/
theorem findProc_pid (k : Kernel) (b : Pid) (p : Process)
    (h : k.findProc b = some p) : p.pid = b := by
  have h1 := List.find?_some h
  simpa using h1

/-- A group lookup returns a record carrying the looked-up pgid. -/
theorem findGroup_pgid (k : Kernel) (b : Pgid) (g : ProcessGroup)
    (h : k.findGroup b = some g) : g.pgid = b := by
  have h1 := List.find?_some h
  simpa using h1

/-- Updating the process with pid `a` by a pid-preserving mutation
changes exactly the record found at `a` and no other lookup. -/
theorem findProc_updateProc (k : Kernel) (a b : Pid) (f : Process → Process)
    (hf : ∀ p, (f p).pid = p.pid) :
    (k.updateProc a f).findProc b
      = (k.findProc b).map (fun p => if b = a then f p else p) := by
  have hg : ((fun p : Process => p.pid == b) ∘
      (fun p : Process => if p.pid == a then f p else p))
      = (fun p : Process => p.pid == b) := by
    funext p
    simp only [Function.comp_apply]
    by_cases h : p.pid = a
    · rw [if_pos (by simp [h]), hf]
    · rw [if_neg (by simp [h])]
  show List.find? (fun p => p.pid == b)
      (k.procs.map (fun p => if p.pid == a then f p else p))
    = (k.procs.find? (fun p => p.pid == b)).map
        (fun p => if b = a then f p else p)
  rw [List.find?_map, hg]
  cases hfind : k.procs.find? (fun p => p.pid == b) with
  | none => rfl
  | some p =>
    have hp : p.pid = b := by
      have h1 := List.find?_some hfind
      simpa using h1
    by_cases hba : b = a
    · simp [hp, hba]
    · have hcond : (p.pid == a) = false := by
        simp [hp, hba]
      show some (if p.pid == a then f p else p)
        = some (if b = a then f p else p)
      rw [hcond]
      simp [hba]

/-- Updating the group with pgid `a` by a pgid-preserving mutation
changes exactly the record found at `a` and no other lookup. -/
theorem findGroup_updateGroup (k : Kernel) (a b : Pgid)
    (f : ProcessGroup → ProcessGroup) (hf : ∀ g, (f g).pgid = g.pgid) :
    (k.updateGroup a f).findGroup b
      = (k.findGroup b).map (fun g => if b = a then f g else g) := by
  have hg : ((fun g : ProcessGroup => g.pgid == b) ∘
      (fun g : ProcessGroup => if g.pgid == a then f g else g))
      = (fun g : ProcessGroup => g.pgid == b) := by
    funext g
    simp only [Function.comp_apply]
    by_cases h : g.pgid = a
    · rw [if_pos (by simp [h]), hf]
    · rw [if_neg (by simp [h])]
  show List.find? (fun g => g.pgid == b)
      (k.groups.map (fun g => if g.pgid == a then f g else g))
    = (k.groups.find? (fun g => g.pgid == b)).map
        (fun g => if b = a then f g else g)
  rw [List.find?_map, hg]
  cases hfind : k.groups.find? (fun g => g.pgid == b) with
  | none => rfl
  | some g =>
    have hp : g.pgid = b := by
      have h1 := List.find?_some hfind
      simpa using h1
    by_cases hba : b = a
    · simp [hp, hba]
    · have hcond : (g.pgid == a) = false := by
        simp [hp, hba]
      show some (if g.pgid == a then f g else g)
        = some (if b = a then f g else g)
      rw [hcond]
      simp [hba]

/-- `set_parent` does not change the pid. -/
theorem set_parent_pid (p : Process) (q : Option Pid) :
    (p.set_parent q).pid = p.pid := rfl

/-- `add_child` does not change the pid. -/
theorem add_child_pid (p : Process) (c : Pid) :
    (p.add_child c).pid = p.pid := by
  unfold Process.add_child
  split <;> rfl

/-- `add_child` changes only the `children` field. -/
theorem add_child_children_only (p : Process) (c : Pid) :
    ∃ ch, p.add_child c = { p with children := ch } := by
  unfold Process.add_child
  split
  · exact ⟨p.children, rfl⟩
  · exact ⟨p.children ++ [c], rfl⟩

/-- Group updates leave the process heap untouched. -/
theorem findProc_updateGroup (k : Kernel) (a : Pgid) (b : Pid)
    (f : ProcessGroup → ProcessGroup) :
    (k.updateGroup a f).findProc b = k.findProc b := rfl

/-- Process updates leave the group table untouched. -/
theorem findGroup_updateProc (k : Kernel) (a : Pid) (b : Pgid)
    (f : Process → Process) :
    (k.updateProc a f).findGroup b = k.findGroup b := rfl

end JinuxStd

namespace JinuxStd

/-- C4, counterexample to the claim as stated: process 5 is in group 5
and switches to group 7.  The state reached after
`set_process_group`'s first step — externally observable, since the
`process_group` mutex and the old group's lock have both been released
there — has the process's `process_group` reference still naming group
5 while group 5 no longer lists pid 5: the claimed "no intermediate
externally observable state omits one side" is false. -/
theorem C4_orphaned_window_counterexample :
    groupRefConsistent twoGroupKernel 5 = true ∧
    Process.set_process_group_step1 twoGroupKernel 5
      ∈ Process.set_process_group_states twoGroupKernel 5 (some 7) ∧
    groupRefConsistent (Process.set_process_group_step1 twoGroupKernel 5) 5
      = false := by
  decide

/-- C4, amended: `set_process_group`'s removal from the old group and
its reference update are two separately locked steps.  After
completion the reference names the new group and the old group no
longer lists the pid, and no observable state (before, between, after)
has both the old and the new group listing the pid (provided the new
group did not already list it); however, the intermediate state — the
process's reference still naming the old group although that group no
longer lists the pid — is externally observable. -/
theorem C4_set_process_group_two_step (k : Kernel) (self : Pid)
    (newg : Option Pgid) (p : Process) (oldgid : Pgid) (oldg : ProcessGroup)
    (hp : k.findProc self = some p)
    (href : p.process_group = some oldgid)
    (hog : k.findGroup oldgid = some oldg)
    (hnew : ∀ gid, newg = some gid → groupListsPid k gid self = false)
    (hne : newg ≠ some oldgid) :
    ((Process.set_process_group k self newg).findProc self).map
        Process.process_group = some newg ∧
    groupListsPid (Process.set_process_group k self newg) oldgid self
      = false ∧
    (∀ s ∈ Process.set_process_group_states k self newg,
      ∀ gid, newg = some gid →
        ¬(groupListsPid s oldgid self = true ∧
          groupListsPid s gid self = true)) ∧
    Process.set_process_group_step1 k self
      ∈ Process.set_process_group_states k self newg ∧
    (self ∈ oldg.processes →
      groupRefConsistent (Process.set_process_group_step1 k self) self
        = false) := by
  have hpid : p.pid = self := findProc_pid k self p hp
  have hpgid : oldg.pgid = oldgid := findGroup_pgid k oldgid oldg hog
  have hrp : ∀ g : ProcessGroup, (g.remove_process p.pid).pgid = g.pgid :=
    fun g => rfl
  have h1 : Process.set_process_group_step1 k self
      = k.updateGroup oldg.pgid (fun g => g.remove_process p.pid) := by
    unfold Process.set_process_group_step1
    rw [hp]
    show (match p.process_group.bind k.findGroup with
      | some old_process_group =>
          k.updateGroup old_process_group.pgid
            (fun g => g.remove_process p.pid)
      | none => k)
      = k.updateGroup oldg.pgid (fun g => g.remove_process p.pid)
    rw [href, Option.some_bind, hog]
  have hfg1 : ∀ b : Pgid, (Process.set_process_group_step1 k self).findGroup b
      = (k.findGroup b).map
          (fun g => if b = oldgid then g.remove_process p.pid else g) := by
    intro b
    rw [h1, findGroup_updateGroup _ _ _ _ hrp, hpgid]
  have hfp1 : (Process.set_process_group_step1 k self).findProc self
      = some p := by
    rw [h1, findProc_updateGroup, hp]
  have hsetpg : ∀ q : Process,
      ({ q with process_group := newg } : Process).pid = q.pid :=
    fun q => rfl
  have hfp2 : (Process.set_process_group k self newg).findProc self
      = some { p with process_group := newg } := by
    unfold Process.set_process_group Process.set_process_group_step2
    rw [findProc_updateProc _ _ _ _ hsetpg, hfp1]
    simp
  have hfg2 : ∀ b : Pgid, (Process.set_process_group k self newg).findGroup b
      = (Process.set_process_group_step1 k self).findGroup b := by
    intro b
    unfold Process.set_process_group Process.set_process_group_step2
    rw [findGroup_updateProc]
  have holdlists : ∀ s : Kernel,
      s.findGroup oldgid = some (oldg.remove_process p.pid) →
      groupListsPid s oldgid self = false := by
    intro s hs
    unfold groupListsPid
    rw [hs]
    simp [ProcessGroup.remove_process, hpid, List.mem_filter]
  have hog1 : (Process.set_process_group_step1 k self).findGroup oldgid
      = some (oldg.remove_process p.pid) := by
    rw [hfg1, hog]
    simp
  refine ⟨?_, ?_, ?_, ?_, ?_⟩
  · rw [hfp2]
    rfl
  · exact holdlists _ ((hfg2 oldgid).trans hog1)
  · intro s hs gid hgid
    have hgidne : gid ≠ oldgid := by
      intro hcontra
      exact hne (hcontra ▸ hgid)
    have hknew : groupListsPid k gid self = false := hnew gid hgid
    have hnewk1 : (Process.set_process_group_step1 k self).findGroup gid
        = k.findGroup gid := by
      rw [hfg1]
      cases k.findGroup gid with
      | none => rfl
      | some g => simp [hgidne]
    have hlists_eq : ∀ s' : Kernel, s'.findGroup gid = k.findGroup gid →
        groupListsPid s' gid self = groupListsPid k gid self := by
      intro s' h
      unfold groupListsPid
      rw [h]
    simp only [Process.set_process_group_states, List.mem_cons,
      List.mem_singleton, List.not_mem_nil, or_false] at hs
    rcases hs with rfl | rfl | rfl
    · rintro ⟨-, hB⟩
      rw [hknew] at hB
      exact Bool.false_ne_true hB
    · rintro ⟨-, hB⟩
      rw [hlists_eq _ hnewk1, hknew] at hB
      exact Bool.false_ne_true hB
    · rintro ⟨-, hB⟩
      rw [hlists_eq _ ((hfg2 gid).trans hnewk1), hknew] at hB
      exact Bool.false_ne_true hB
  · simp [Process.set_process_group_states]
  · intro _
    simp only [groupRefConsistent, hfp1, href, hog1]
    simp [ProcessGroup.remove_process, hpid, List.mem_filter]

/-- Witness for the amended C4 theorem at the concrete two-group
kernel: after process 5 switches from group 5 to group 7, its
reference names group 7 and group 5 no longer lists pid 5. -/
theorem C4_set_process_group_two_step_witness :
    ((Process.set_process_group twoGroupKernel 5 (some 7)).findProc 5).map
        Process.process_group = some (some 7) ∧
    groupListsPid (Process.set_process_group twoGroupKernel 5 (some 7)) 5 5
      = false :=
  have h := C4_set_process_group_two_step twoGroupKernel 5 (some 7)
    groupedProcess 5 (ProcessGroup.newGroup 5) (by decide) rfl (by decide)
    (by
      intro gid hgid
      obtain rfl : (7 : Pgid) = gid := Option.some.inj hgid
      decide)
    (by decide)
  ⟨h.1, h.2.1⟩

end JinuxStd

namespace JinuxStd

/-- Removing threads from the thread registry leaves the process heap
untouched. -/
theorem foldl_remove_thread_procs (ts : List Tid) (k : Kernel) :
    (ts.foldl thread_table.remove_thread k).procs = k.procs := by
  induction ts generalizing k with
  | nil => rfl
  | cons t ts ih =>
    rw [List.foldl_cons, ih]
    rfl

/-- Removing threads from the thread registry leaves the process
registry untouched. -/
theorem foldl_remove_thread_process_table (ts : List Tid) (k : Kernel) :
    (ts.foldl thread_table.remove_thread k).process_table
      = k.process_table := by
  induction ts generalizing k with
  | nil => rfl
  | cons t ts ih =>
    rw [List.foldl_cons, ih]
    rfl

/-- Removing threads from the thread registry leaves the group table
untouched. -/
theorem foldl_remove_thread_groups (ts : List Tid) (k : Kernel) :
    (ts.foldl thread_table.remove_thread k).groups = k.groups := by
  induction ts generalizing k with
  | nil => rfl
  | cons t ts ih =>
    rw [List.foldl_cons, ih]
    rfl

/-- After removing a list of tids, the thread registry holds exactly
the previously registered tids not in the list. -/
theorem foldl_remove_thread_mem (ts : List Tid) (k : Kernel) (t : Tid) :
    t ∈ (ts.foldl thread_table.remove_thread k).thread_table
      ↔ t ∈ k.thread_table ∧ t ∉ ts := by
  induction ts generalizing k with
  | nil => simp
  | cons u ts ih =>
    rw [List.foldl_cons, ih]
    simp only [thread_table.remove_thread, List.mem_filter, List.mem_cons,
      decide_eq_true_eq, not_or]
    tauto

end JinuxStd

namespace JinuxStd

/-- C5: reaping a zombie child removes exactly that pid from the
parent's children map, destroys the child's entire address space,
removes each of the child's threads from the global thread registry,
removes the child from the global process registry and from its
process group (if the weak reference still upgrades), and returns the
child's stored exit code; a second call with the same pid hits the
`unwrap` on the now-absent map entry — a kernel abort (`none`), never
a silent success. -/
theorem C5_reap_zombie_child_spec (k : Kernel) (self pid : Pid)
    (sp ch : Process)
    (hs : k.findProc self = some sp)
    (hch : k.findProc pid = some ch)
    (hne : self ≠ pid)
    (hc : sp.children.contains pid = true)
    (hz : ch.status.is_zombie = true) :
    ∃ k', Process.reap_zombie_child k self pid = some (k', ch.exit_code) ∧
      k'.findProc self
        = some { sp with children := sp.children.filter (fun q => q ≠ pid) } ∧
      (∀ q : Pid, q ∈ sp.children.filter (fun q => q ≠ pid)
          ↔ q ∈ sp.children ∧ q ≠ pid) ∧
      k'.findProc pid = some { ch with vmar_destroyed := true } ∧
      (∀ t : Tid, t ∈ k'.thread_table ↔ t ∈ k.thread_table ∧ t ∉ ch.threads) ∧
      (∀ q : Pid, q ∈ k'.process_table ↔ q ∈ k.process_table ∧ q ≠ pid) ∧
      (∀ gid g, ch.process_group = some gid → k.findGroup gid = some g →
        k'.findGroup gid = some (g.remove_process pid)) ∧
      (∀ gid, ch.process_group = some gid → groupListsPid k' gid pid = false) ∧
      Process.reap_zombie_child k' self pid = none := by
  have hchpid : ch.pid = pid := findProc_pid k pid ch hch
  have hfc : ∀ p : Process,
      ({ p with children := p.children.filter (fun q => q ≠ pid) } : Process).pid
        = p.pid := fun p => rfl
  have hfv : ∀ p : Process,
      ({ p with vmar_destroyed := true } : Process).pid = p.pid := fun p => rfl
  have hrg : ∀ g : ProcessGroup, (g.remove_process ch.pid).pgid = g.pgid :=
    fun g => rfl
  -- the kernel after removing the pid from the parent's children map
  have hk1self : (k.updateProc self
      (fun p => { p with children := p.children.filter (fun q => q ≠ pid) })).findProc
        self
      = some { sp with children := sp.children.filter (fun q => q ≠ pid) } := by
    rw [findProc_updateProc _ _ _ _ hfc, hs]
    simp
  have hk1pid : (k.updateProc self
      (fun p => { p with children := p.children.filter (fun q => q ≠ pid) })).findProc
        pid
      = some ch := by
    rw [findProc_updateProc _ _ _ _ hfc, hch]
    simp [Ne.symm hne]
  have hfilter : ∀ q : Pid, q ∈ sp.children.filter (fun q => q ≠ pid)
      ↔ q ∈ sp.children ∧ q ≠ pid := by
    intro q
    simp [List.mem_filter]
  have hsecond : ∀ kk : Kernel,
      kk.findProc self
        = some { sp with children := sp.children.filter (fun q => q ≠ pid) } →
      Process.reap_zombie_child kk self pid = none := by
    intro kk hkk
    unfold Process.reap_zombie_child
    rw [hkk]
    simp [List.contains, List.mem_filter]
  unfold Process.reap_zombie_child
  rw [hs]
  simp only [hc, if_true, hk1pid, hz]
  set k1 := k.updateProc self
      (fun p => { p with children := p.children.filter (fun q => q ≠ pid) })
    with hk1
  set k2 := k1.updateProc pid (fun p => { p with vmar_destroyed := true })
    with hk2
  set k3 := ch.threads.foldl thread_table.remove_thread k2 with hk3
  set k4 := process_table.remove_process k3 ch.pid with hk4
  have hk2self : k2.findProc self
      = some { sp with children := sp.children.filter (fun q => q ≠ pid) } := by
    rw [hk2, findProc_updateProc _ _ _ _ hfv, hk1self]
    simp [hne]
  have hk2pid : k2.findProc pid = some { ch with vmar_destroyed := true } := by
    rw [hk2, findProc_updateProc _ _ _ _ hfv, hk1pid]
    simp
  have hprocs4 : k4.procs = k2.procs := by
    rw [hk4, hk3]
    exact foldl_remove_thread_procs ch.threads k2
  have hfp4 : ∀ b : Pid, k4.findProc b = k2.findProc b := by
    intro b
    show List.find? _ k4.procs = List.find? _ k2.procs
    rw [hprocs4]
  have hpt2 : k2.process_table = k.process_table := by
    rw [hk2, hk1]
    rfl
  have hgroups4 : k4.groups = k.groups := by
    rw [hk4]
    show k3.groups = k.groups
    rw [hk3, foldl_remove_thread_groups, hk2, hk1]
    rfl
  have hfgEq : ∀ b : Pgid, k4.findGroup b = k.findGroup b := by
    intro b
    show List.find? _ k4.groups = List.find? _ k.groups
    rw [hgroups4]
  have htt4 : ∀ t : Tid,
      t ∈ k4.thread_table ↔ t ∈ k.thread_table ∧ t ∉ ch.threads := by
    intro t
    rw [hk4]
    show t ∈ k3.thread_table ↔ _
    rw [hk3, foldl_remove_thread_mem]
    rw [hk2, hk1]
    exact Iff.rfl
  have hpt4 : ∀ q : Pid,
      q ∈ k4.process_table ↔ q ∈ k.process_table ∧ q ≠ pid := by
    intro q
    rw [hk4]
    show q ∈ k3.process_table.filter (fun x => x ≠ ch.pid) ↔ _
    rw [hk3, foldl_remove_thread_process_table, hpt2]
    simp [List.mem_filter, hchpid]
  have hself4 : k4.findProc self
      = some { sp with children := sp.children.filter (fun q => q ≠ pid) } :=
    (hfp4 self).trans hk2self
  cases hpg : ch.process_group with
  | none =>
    simp only [hpg, Option.none_bind]
    rw [hpg] at hk2pid
    refine ⟨k4, rfl, hself4, hfilter, (hfp4 pid).trans hk2pid, htt4, hpt4,
      ?_, ?_, hsecond k4 hself4⟩
    · intro gid g h
      exact absurd h (by simp)
    · intro gid h
      exact absurd h (by simp)
  | some gid0 =>
    simp only [hpg, Option.some_bind]
    rw [hpg] at hk2pid
    cases hfg4 : k4.findGroup gid0 with
    | none =>
      refine ⟨k4, rfl, hself4, hfilter, (hfp4 pid).trans hk2pid, htt4, hpt4,
        ?_, ?_, hsecond k4 hself4⟩
      · intro gid g h hfgk
        obtain rfl : gid0 = gid := Option.some.inj h
        rw [hfgEq] at hfg4
        rw [hfg4] at hfgk
        exact absurd hfgk (by simp)
      · intro gid h
        obtain rfl : gid0 = gid := Option.some.inj h
        unfold groupListsPid
        rw [hfg4]
    | some g0 =>
      have hg0pgid : g0.pgid = gid0 := findGroup_pgid k4 gid0 g0 hfg4
      refine ⟨k4.updateGroup g0.pgid (fun g => g.remove_process ch.pid), rfl,
        ?_, hfilter, ?_, ?_, ?_, ?_, ?_, ?_⟩
      · show k4.findProc self = _
        exact hself4
      · show k4.findProc pid = _
        exact (hfp4 pid).trans hk2pid
      · show ∀ t : Tid, t ∈ k4.thread_table ↔ _
        exact htt4
      · show ∀ q : Pid, q ∈ k4.process_table ↔ _
        exact hpt4
      · intro gid g h hfgk
        obtain rfl : gid0 = gid := Option.some.inj h
        have hgg : g = g0 := by
          rw [hfgEq] at hfg4
          rw [hfg4] at hfgk
          exact (Option.some.inj hfgk).symm
        rw [findGroup_updateGroup _ _ _ _ hrg, hfg4]
        simp [hg0pgid, hgg, hchpid]
      · intro gid h
        obtain rfl : gid0 = gid := Option.some.inj h
        unfold groupListsPid
        rw [findGroup_updateGroup _ _ _ _ hrg, hfg4]
        simp [hg0pgid, ProcessGroup.remove_process, List.contains,
          List.mem_filter, hchpid]
      · exact hsecond _ hself4

end JinuxStd

namespace JinuxStd

/-- Witness for C5 at the concrete fixture: reaping zombie child 8
from parent 2 succeeds and returns the stored exit code 42, and a
second reap of the same pid aborts. -/
theorem C5_reap_zombie_child_witness :
    ∃ kr, Process.reap_zombie_child reapKernel 2 8
        = some (kr, reapChild.exit_code) ∧
      Process.reap_zombie_child kr 2 8 = none := by
  obtain ⟨kr, h1, -, -, -, -, -, -, -, h9⟩ :=
    C5_reap_zombie_child_spec reapKernel 2 8 reapParent reapChild
      (by decide) (by decide) (by decide) (by decide) (by decide)
  exact ⟨kr, h1, h9⟩

end JinuxStd

namespace JinuxStd

/-- C3: `spawn_user_process` is atomic-or-nothing with respect to the
global tables.  If address-space creation, user-vm construction, or
thread construction fails, the first failure is returned and the
kernel state — in particular the global process registry — is exactly
the prior state; when everything succeeds, the registry grows by
exactly the new pid and the registered process already owns the sole
constructed thread (registration happens only after the thread has
been built). -/
theorem C3_spawn_atomic_or_nothing (k : Kernel) (env : SpawnEnv) (pid : Pid)
    (hfresh : k.findProc pid = none) :
    (∀ e, env.vmar_new = Except.error e →
       Process.spawn_user_process k env pid = (Except.error e, k)) ∧
    (∀ e, env.vmar_new = Except.ok () → env.user_vm_new = Except.error e →
       Process.spawn_user_process k env pid = (Except.error e, k)) ∧
    (∀ e, env.vmar_new = Except.ok () → env.user_vm_new = Except.ok () →
       env.thread_new = Except.error e →
       Process.spawn_user_process k env pid = (Except.error e, k)) ∧
    (∀ tid, env.vmar_new = Except.ok () → env.user_vm_new = Except.ok () →
       env.thread_new = Except.ok tid →
       ∃ k' p, Process.spawn_user_process k env pid = (Except.ok pid, k') ∧
         k'.process_table = k.process_table ++ [pid] ∧
         process_table.pid_to_process k' pid = some p ∧
         p.threads = [tid]) := by
  obtain ⟨v, u, th⟩ := env
  refine ⟨?_, ?_, ?_, ?_⟩
  · intro e he
    subst he
    rfl
  · intro e hv hu
    subst hv
    subst hu
    rfl
  · intro e hv hu ht
    subst hv
    subst hu
    subst ht
    rfl
  · intro tid hv hu ht
    subst hv
    subst hu
    subst ht
    have hupf : ∀ p : Process,
        ({ p with process_group := some (ProcessGroup.newGroup pid).pgid }
          : Process).pid = p.pid := fun p => rfl
    have h1find : Kernel.findProc
        { k with procs := k.procs ++
            [{ Process.new pid none [] none with
                threads := (Process.new pid none [] none).threads ++ [tid] }] }
        pid
        = some { Process.new pid none [] none with
            threads := (Process.new pid none [] none).threads ++ [tid] } := by
      unfold Kernel.findProc at hfresh ⊢
      rw [List.find?_append, hfresh]
      simp [Process.new]
    have hstep1 : Process.set_process_group_step1
        { k with procs := k.procs ++
            [{ Process.new pid none [] none with
                threads := (Process.new pid none [] none).threads ++ [tid] }] }
        pid
        = { k with procs := k.procs ++
            [{ Process.new pid none [] none with
                threads := (Process.new pid none [] none).threads ++ [tid] }] } := by
      unfold Process.set_process_group_step1
      rw [h1find]
      rfl
    refine ⟨_,
      { Process.new pid none [] none with
          threads := (Process.new pid none [] none).threads ++ [tid],
          process_group := some (ProcessGroup.newGroup pid).pgid },
      rfl, ?_, ?_, rfl⟩
    · show (Process.set_process_group_step1 _ _).process_table ++ [pid]
        = k.process_table ++ [pid]
      rw [hstep1]
    · have hfp : (Process.set_process_group_step2
          (Process.set_process_group_step1
            { k with procs := k.procs ++
                [{ Process.new pid none [] none with
                    threads := (Process.new pid none [] none).threads ++ [tid] }] }
            pid)
          pid (some (ProcessGroup.newGroup pid).pgid)).findProc pid
          = some { Process.new pid none [] none with
              threads := (Process.new pid none [] none).threads ++ [tid],
              process_group := some (ProcessGroup.newGroup pid).pgid } := by
        unfold Process.set_process_group_step2
        rw [hstep1, findProc_updateProc _ _ _ _ hupf, h1find]
        simp
      have hcontains : (process_table.add_process
          (Process.create_and_set_process_group
            { k with procs := k.procs ++
                [{ Process.new pid none [] none with
                    threads := (Process.new pid none [] none).threads ++ [tid] }] }
            pid)
          pid).process_table.contains pid = true := by
        show ((Process.set_process_group_step1
            { k with procs := k.procs ++
                [{ Process.new pid none [] none with
                    threads := (Process.new pid none [] none).threads ++ [tid] }] }
            pid).process_table ++ [pid]).contains pid = true
        rw [hstep1]
        simp [List.contains]
      unfold process_table.pid_to_process
      rw [if_pos hcontains]
      exact hfp

end JinuxStd

namespace JinuxStd

/-- Witness for C3 at concrete inputs: failing address-space creation
leaves the empty kernel untouched and propagates error 12; a fully
successful spawn registers pid 7 with its sole thread 31. -/
theorem C3_spawn_atomic_or_nothing_witness :
    Process.spawn_user_process emptyKernel spawnEnvFail 7
      = (Except.error 12, emptyKernel) ∧
    (∃ k' p, Process.spawn_user_process emptyKernel spawnEnvOk 7
        = (Except.ok 7, k') ∧
      k'.process_table = emptyKernel.process_table ++ [7] ∧
      process_table.pid_to_process k' 7 = some p ∧
      p.threads = [31]) :=
  ⟨(C3_spawn_atomic_or_nothing emptyKernel spawnEnvFail 7 rfl).1 12 rfl,
   (C3_spawn_atomic_or_nothing emptyKernel spawnEnvOk 7 rfl).2.2.2 31
     rfl rfl rfl⟩

end JinuxStd

namespace JinuxStd

/-- One reparenting step only rewrites the moved child's parent and
the init process's children, as seen by any heap lookup. -/
theorem reparentStep_findProc (i c b : Pid) (k : Kernel) :
    (reparentStep i k c).findProc b
      = ((k.findProc b).map
          (fun p => if b = c then p.set_parent (some i) else p)).map
          (fun p => if b = i then p.add_child c else p) := by
  unfold reparentStep
  rw [findProc_updateProc _ _ _ _ (fun p => add_child_pid p c),
    findProc_updateProc _ _ _ _ (fun p => set_parent_pid p (some i))]

/-- A process that is not among the moved children survives the whole
reparenting loop with every field except (possibly) `children`
intact. -/
theorem foldl_reparentStep_findProc (cs : List Pid) (i : Pid) :
    ∀ (k : Kernel) (b : Pid) (p : Process), b ∉ cs →
      k.findProc b = some p →
      ∃ ch, (cs.foldl (reparentStep i) k).findProc b
          = some { p with children := ch } := by
  induction cs with
  | nil =>
    intro k b p _ hp
    exact ⟨p.children, hp⟩
  | cons c cs ih =>
    intro k b p hb hp
    have hbc : b ≠ c := fun h => hb (h ▸ List.mem_cons_self c cs)
    have hbcs : b ∉ cs := fun h => hb (List.mem_cons_of_mem c h)
    rw [List.foldl_cons]
    have hstep : (reparentStep i k c).findProc b
        = some (if b = i then p.add_child c else p) := by
      rw [reparentStep_findProc, hp]
      simp [hbc]
    by_cases hbi : b = i
    · obtain ⟨ch0, hch0⟩ := add_child_children_only p c
      have hone : (reparentStep i k c).findProc b
          = some { p with children := ch0 } := by
        rw [hstep]
        simp [hbi, hch0]
      obtain ⟨ch, hch⟩ := ih _ b _ hbcs hone
      exact ⟨ch, hch⟩
    · have hone : (reparentStep i k c).findProc b = some p := by
        rw [hstep]
        simp [hbi]
      obtain ⟨ch, hch⟩ := ih _ b _ hbcs hone
      exact ⟨ch, hch⟩

/-- The reparenting loop never deletes a heap entry. -/
theorem foldl_reparentStep_isSome (cs : List Pid) (i : Pid) :
    ∀ (k : Kernel) (b : Pid), (k.findProc b).isSome = true →
    ((cs.foldl (reparentStep i) k).findProc b).isSome = true := by
  induction cs with
  | nil =>
    intro k b h
    exact h
  | cons c cs ih =>
    intro k b h
    rw [List.foldl_cons]
    apply ih
    rw [reparentStep_findProc]
    cases hfb : k.findProc b with
    | none =>
      rw [hfb] at h
      exact absurd h (by simp)
    | some p => simp

/-- The reparenting block of `exit_group` leaves every process that is
not a moved child with all fields except (possibly) `children`
intact. -/
theorem exit_group_reparent_preserves (k : Kernel) (self b : Pid)
    (p : Process)
    (hself : ∀ sp, k.findProc self = some sp → b ∉ sp.children)
    (hb : k.findProc b = some p) :
    ∃ ch, (Process.exit_group_reparent k self).1.findProc b
        = some { p with children := ch } := by
  unfold Process.exit_group_reparent
  cases hfs : k.findProc self with
  | none => exact ⟨p.children, hb⟩
  | some sp =>
    dsimp only
    cases hinit : sp.is_init_process with
    | true => exact ⟨p.children, hb⟩
    | false =>
      cases hgi : get_init_process k with
      | none => exact ⟨p.children, hb⟩
      | some init =>
        have hk1b : (k.updateProc self
            (fun p => { p with children := [] })).findProc b
            = some (if b = self then { p with children := [] } else p) := by
          rw [findProc_updateProc k self b
            (fun p => { p with children := [] }) (fun q => rfl), hb]
          rfl
        by_cases hbs : b = self
        · have h' : (k.updateProc self
              (fun p => { p with children := [] })).findProc b
              = some { p with children := [] } := by
            rw [hk1b]
            simp [hbs]
          obtain ⟨ch, hch⟩ :=
            foldl_reparentStep_findProc sp.children init.pid _ b _
              (hself sp hfs) h'
          exact ⟨ch, hch⟩
        · have h' : (k.updateProc self
              (fun p => { p with children := [] })).findProc b = some p := by
            rw [hk1b]
            simp [hbs]
          obtain ⟨ch, hch⟩ :=
            foldl_reparentStep_findProc sp.children init.pid _ b _
              (hself sp hfs) h'
          exact ⟨ch, hch⟩

/-- The reparenting block never deletes a heap entry. -/
theorem exit_group_reparent_isSome (k : Kernel) (self b : Pid)
    (h : (k.findProc b).isSome = true) :
    ((Process.exit_group_reparent k self).1.findProc b).isSome = true := by
  unfold Process.exit_group_reparent
  cases hfs : k.findProc self with
  | none => exact h
  | some sp =>
    dsimp only
    cases hinit : sp.is_init_process with
    | true => exact h
    | false =>
      cases hgi : get_init_process k with
      | none => exact h
      | some init =>
        apply foldl_reparentStep_isSome
        rw [findProc_updateProc k self b
          (fun p => { p with children := [] }) (fun q => rfl)]
        cases hfb : k.findProc b with
        | none =>
          rw [hfb] at h
          exact absurd h (by simp)
        | some p => simp

/-- The reparenting block emits only `ReparentChild` events. -/
theorem exit_group_reparent_events (k : Kernel) (self : Pid) :
    ∀ e ∈ (Process.exit_group_reparent k self).2,
      ∃ c q, e = Event.ReparentChild c q := by
  unfold Process.exit_group_reparent
  cases hfs : k.findProc self with
  | none =>
    intro e he
    exact absurd he (List.not_mem_nil e)
  | some sp =>
    dsimp only
    cases hinit : sp.is_init_process with
    | true =>
      intro e he
      exact absurd he (List.not_mem_nil e)
    | false =>
      cases hgi : get_init_process k with
      | none =>
        intro e he
        exact absurd he (List.not_mem_nil e)
      | some init =>
        intro e he
        have he' : e ∈ sp.children.map
            (fun c => Event.ReparentChild c init.pid) := he
        simp only [List.mem_map] at he'
        obtain ⟨c, -, rfl⟩ := he'
        exact ⟨c, init.pid, rfl⟩

end JinuxStd


namespace JinuxStd

/-- C6: in `exit_group`, when the parent reference upgrades, the
SIGCHLD enqueue on the parent's signal queue comes strictly before the
`wake_all` on the parent's wait queue (they are the last two events,
in that order), the Zombie status write and the exit-code store come
before both (they are the first two events), and every event in
between is a thread-exit request or a child reparenting; the state at
wake time has the exiting process in Zombie status with the stored
exit code, and the parent's signal queue ends with the SIGCHLD. -/
theorem C6_signal_then_wake (k : Kernel) (self pp : Pid) (code : Int)
    (sp par : Process)
    (hs : k.findProc self = some sp)
    (hpar : sp.parent = some pp)
    (hpp : k.findProc pp = some par)
    (hnc : self ∉ sp.children) :
    ∃ mid pq,
      (Process.exit_group k self code).2
        = Event.SetZombie self :: Event.StoreExitCode self code ::
            (mid ++ [Event.EnqueueSignal pp SIGCHLD, Event.WakeAll pp]) ∧
      (∀ e ∈ mid, (∃ t, e = Event.ThreadExit t) ∨
        ∃ c q, e = Event.ReparentChild c q) ∧
      ((Process.exit_group k self code).1.findProc self).map Process.status
        = some ProcessStatus.Zombie ∧
      ((Process.exit_group k self code).1.findProc self).map Process.exit_code
        = some code ∧
      ((Process.exit_group k self code).1.findProc pp).map
        (fun p => p.sig_queues.queue) = some (pq ++ [SIGCHLD]) := by
  unfold Process.exit_group
  dsimp only
  set kk2 := (k.updateProc self
      (fun p => { p with status := p.status.set_zombie })).updateProc
    self (fun p => { p with exit_code := code }) with hkk2
  have hk2self : kk2.findProc self
      = some { sp with status := ProcessStatus.Zombie, exit_code := code } := by
    rw [hkk2,
      findProc_updateProc (k.updateProc self
          (fun p => { p with status := p.status.set_zombie }))
        self self (fun p => { p with exit_code := code }) (fun q => rfl),
      findProc_updateProc k self self
        (fun p => { p with status := p.status.set_zombie }) (fun q => rfl),
      hs]
    simp [ProcessStatus.set_zombie]
  have hk2pp : (kk2.findProc pp).isSome = true := by
    rw [hkk2,
      findProc_updateProc (k.updateProc self
          (fun p => { p with status := p.status.set_zombie }))
        self pp (fun p => { p with exit_code := code }) (fun q => rfl),
      findProc_updateProc k self pp
        (fun p => { p with status := p.status.set_zombie }) (fun q => rfl),
      hpp]
    simp
  have hself2 : ∀ sp', kk2.findProc self = some sp' → self ∉ sp'.children := by
    intro sp' h
    rw [hk2self] at h
    obtain rfl := Option.some.inj h
    exact hnc
  obtain ⟨ch, hRself⟩ := exit_group_reparent_preserves kk2 self self
    { sp with status := ProcessStatus.Zombie, exit_code := code } hself2 hk2self
  have hRpp_some : (((Process.exit_group_reparent kk2 self).1).findProc
      pp).isSome = true :=
    exit_group_reparent_isSome kk2 self pp hk2pp
  obtain ⟨parR, hRpp⟩ := Option.isSome_iff_exists.mp hRpp_some
  have hparRpid : parR.pid = pp :=
    findProc_pid (Process.exit_group_reparent kk2 self).1 pp parR hRpp
  have hparent2 :
      ({ sp with
          status := ProcessStatus.Zombie, exit_code := code,
          children := ch } : Process).parent = some pp := hpar
  have hnotify : Process.exit_group_notify
      (Process.exit_group_reparent kk2 self).1 self
      = ((Process.exit_group_reparent kk2 self).1.updateProc parR.pid
          (fun p => { p with sig_queues := p.sig_queues.enqueue SIGCHLD }),
         [Event.EnqueueSignal parR.pid SIGCHLD,
          Event.WakeAll parR.pid]) := by
    unfold Process.exit_group_notify
    rw [hRself]
    dsimp only [Process.parentProc]
    rw [hparent2, Option.some_bind, hRpp]
  refine ⟨sp.threads.map Event.ThreadExit ++
      (Process.exit_group_reparent kk2 self).2,
    parR.sig_queues.queue, ?_, ?_, ?_, ?_, ?_⟩
  · rw [hk2self, hnotify, hparRpid]
    dsimp only
    simp [List.cons_append, List.append_assoc]
  · intro e he
    rcases List.mem_append.mp he with hT | hR
    · obtain ⟨t, -, rfl⟩ := List.mem_map.mp hT
      exact Or.inl ⟨t, rfl⟩
    · exact Or.inr (exit_group_reparent_events kk2 self e hR)
  · rw [hnotify]
    dsimp only
    rw [findProc_updateProc (Process.exit_group_reparent kk2 self).1
      parR.pid self
      (fun p => { p with sig_queues := p.sig_queues.enqueue SIGCHLD })
      (fun q => rfl), hRself]
    by_cases hsp : self = parR.pid <;> simp [hsp]
  · rw [hnotify]
    dsimp only
    rw [findProc_updateProc (Process.exit_group_reparent kk2 self).1
      parR.pid self
      (fun p => { p with sig_queues := p.sig_queues.enqueue SIGCHLD })
      (fun q => rfl), hRself]
    by_cases hsp : self = parR.pid <;> simp [hsp]
  · rw [hnotify]
    dsimp only
    rw [findProc_updateProc (Process.exit_group_reparent kk2 self).1
      parR.pid pp
      (fun p => { p with sig_queues := p.sig_queues.enqueue SIGCHLD })
      (fun q => rfl), hRpp]
    simp [hparRpid, SigQueues.enqueue]

end JinuxStd

namespace JinuxStd

/-- Witness for C6 at the concrete fixture: pid 8 (child of pid 0)
exits with code 3; the trace starts with the Zombie write and the
exit-code store and ends with the SIGCHLD enqueue followed by the
wake-all on parent 0, which then observes the child as a Zombie whose
queue ends in SIGCHLD. -/
theorem C6_signal_then_wake_witness :
    ∃ mid pq,
      (Process.exit_group pidZeroKernel 8 3).2
        = Event.SetZombie 8 :: Event.StoreExitCode 8 3 ::
            (mid ++ [Event.EnqueueSignal 0 SIGCHLD, Event.WakeAll 0]) ∧
      ((Process.exit_group pidZeroKernel 8 3).1.findProc 8).map Process.status
        = some ProcessStatus.Zombie ∧
      ((Process.exit_group pidZeroKernel 8 3).1.findProc 0).map
        (fun p => p.sig_queues.queue) = some (pq ++ [SIGCHLD]) := by
  obtain ⟨mid, pq, h1, -, h3, -, h5⟩ :=
    C6_signal_then_wake pidZeroKernel 8 0 3 pidZeroChild pidZeroParent
      (by decide) rfl (by decide) (by decide)
  exact ⟨mid, pq, h1, h3, h5⟩

end JinuxStd
